import Mathlib

/-!
Shallow embedding of the serial-unit-testing tool's parser front end and
serial response-matching primitive, translated from the Rust sources
(`src/parser/mod.rs`, `src/parser/error.rs`, `src/serial/mod.rs`,
`src/send.rs`).  Modules of the repository that are referenced but whose
source files are not present (`parser/token.rs`, `parser/lexer.rs`,
`parser/finite_state_maschine.rs`, `parser/string_util.rs`, the `tests`
data-model module and the `utils` codec module) are modelled from the
specification; each such definition says so in its doc comment.
-/

namespace SerialUnitTesting

/-- Modelled from the spec: `TokenKind` is the closed enumeration of token
kinds from the token model (`parser/token.rs` is absent from the sources). -/
inductive TokenType where
  | Identifier
  | LeftGroupParenthesis
  | RightGroupParenthesis
  | LeftTestParenthesis
  | RightTestParenthesis
  | ContentSeparator
  | OptionSeparator
  | DirectionSeparator
  | FormatSpecifier
  | Content
  | Newline
  | Illegal
  deriving DecidableEq, Repr

/-- Modelled from the spec: a token is a kind plus its text and 1-based
source position (`parser/token.rs` is absent from the sources).  Field
names follow the uses in `parser/mod.rs` (`token.token_type`,
`token.value`, `token.line`, `token.column`). -/
structure Token where
  token_type : TokenType
  value : String
  line : Nat
  column : Nat
  deriving DecidableEq, Repr

/-- Stand-in token returned by out-of-range indexing.  In the Rust source,
indexing past the end of the token vector panics; the grammar FSM has
already accepted every line whose tokens are walked positionally, so those
accesses are in range.  The stand-in's kind `Illegal` matches no grammar
transition, so it can never be mistaken for a real token. -/
def panicToken : Token := ⟨TokenType.Illegal, "", 0, 0⟩

/-- `tokens[i]` of the Rust source (total via the `panicToken` stand-in). -/
def tok (tokens : List Token) (i : Nat) : Token := tokens.getD i panicToken

/-- From `utils` (module absent from the sources), listed in the spec's data
model: the closed text-format enumeration `{Text, Binary, Octal, Decimal,
Hex}`. -/
inductive TextFormat where
  | Text
  | Binary
  | Octal
  | Decimal
  | Hex
  deriving DecidableEq, Repr

/-- Modelled from the spec: `TestCaseSettings` with its defaults
(`ignore_case` false, formats `Text`, no delay, 1000 ms timeout, repeat 1);
the `tests` module is absent from the sources.  Durations are modelled in
milliseconds.  The source field `repeat` is a reserved word in Lean and is
rendered `repeat_count`. -/
structure TestCaseSettings where
  ignore_case : Bool
  input_format : TextFormat
  output_format : TextFormat
  delay : Option Nat
  timeout : Nat
  repeat_count : Nat
  deriving DecidableEq, Repr

def TestCaseSettings.default : TestCaseSettings :=
  ⟨false, TextFormat.Text, TextFormat.Text, none, 1000, 1⟩

/-- Modelled from the spec: the `TestCase` data model (`tests` module absent
from the sources). -/
structure TestCase where
  name : String
  input : String
  output : String
  settings : TestCaseSettings
  deriving DecidableEq, Repr

def TestCase.new_with_settings (name input output : String)
    (settings : TestCaseSettings) : TestCase :=
  ⟨name, input, output, settings⟩

/-- Modelled from the spec: the `TestSuite` data model (`tests` module
absent from the sources). -/
structure TestSuite where
  name : String
  tests : List TestCase
  deriving DecidableEq, Repr

def TestSuite.new (name : String) : TestSuite := ⟨name, []⟩

def TestSuite.push (suite : TestSuite) (test : TestCase) : TestSuite :=
  { suite with tests := suite.tests ++ [test] }

/-- The parser error enumeration.  `parser/error.rs` in the sources names
`UnknownError`, `ReadFileError`, `IllegalToken`, `MissingClosingParenthesis`,
`MissingDirectionSeparator` and `MissingGroupIdentifier`; `parser/mod.rs`
additionally constructs `MissingTestIdentifier`, `MissingContent`,
`InvalidLineStart`, `InvalidOptionValue` and `UnknownTestOption`, which the
spec's parser boundary also lists, so the enumeration carries all of them. -/
inductive Error where
  | UnknownError (line column : Nat)
  | ReadFileError
  | IllegalToken (value : String) (line column : Nat)
  | MissingClosingParenthesis (value : String) (line column : Nat)
  | MissingDirectionSeparator (line column : Nat)
  | MissingGroupIdentifier (line column : Nat)
  | MissingTestIdentifier (line column : Nat)
  | MissingContent (which : String) (line column : Nat)
  | InvalidLineStart (line column : Nat)
  | InvalidOptionValue (expected : String) (line column : Nat)
  | UnknownTestOption (name : String) (line column : Nat)
  deriving DecidableEq, Repr

/-- Modelled from the spec: the generic FSM engine
(`parser/finite_state_maschine.rs` is absent from the sources).  A machine
is a start state, accepting states, and a transition function over
(state, token); `0` is the reserved reject sentinel. -/
structure FiniteStateMachine where
  start_state : Nat
  accept_states : List Nat
  transition : Nat → Token → Nat

/-- Modelled from the spec: `run` begins at the start state, steps through
the tokens, stops with failure `(state, token)` on a transition to `0`
(state before the rejecting transition, token that caused rejection), and
after consuming all tokens succeeds iff the final state is accepting,
otherwise failing with the final state and the last token consumed
(`panicToken` as the designated sentinel when the sequence was empty, a
case an analysed line never presents). -/
def fsm_run_go (m : FiniteStateMachine) :
    List Token → Nat → Token → Except (Nat × Token) Unit
  | [], state, last =>
      if m.accept_states.contains state then Except.ok ()
      else Except.error (state, last)
  | t :: ts, state, _ =>
      let next := m.transition state t
      if next = 0 then Except.error (state, t)
      else fsm_run_go m ts next t

def FiniteStateMachine.run (m : FiniteStateMachine) (tokens : List Token) :
    Except (Nat × Token) Unit :=
  fsm_run_go m tokens m.start_state panicToken

/-- The group-header grammar transition function from `analyse_tokens`
(`parser/mod.rs`): accepts `LeftGroupParenthesis Identifier
RightGroupParenthesis`, state 4 accepting. -/
def group_transition (state : Nat) (token : Token) : Nat :=
  match state, token.token_type with
  | 1, TokenType.LeftGroupParenthesis => 2
  | 2, TokenType.Identifier => 3
  | 3, TokenType.RightGroupParenthesis => 4
  | _, _ => 0

def group_state_machine : FiniteStateMachine := ⟨1, [4], group_transition⟩

/-- The test-case grammar transition function from `analyse_tokens`
(`parser/mod.rs`): `<( Identifier <, Identifier = Identifier>* )>
<FormatSpecifier> Content -> <FormatSpecifier> Content`, state 9
accepting. -/
def test_transition (state : Nat) (token : Token) : Nat :=
  match state, token.token_type with
  | 1, TokenType.LeftTestParenthesis => 2
  | 1, TokenType.FormatSpecifier => 5
  | 1, TokenType.Content => 5
  | 2, TokenType.Identifier => 3
  | 3, TokenType.RightTestParenthesis => 4
  | 3, TokenType.ContentSeparator => 10
  | 4, TokenType.FormatSpecifier => 5
  | 4, TokenType.Content => 6
  | 5, TokenType.Content => 6
  | 6, TokenType.DirectionSeparator => 7
  | 7, TokenType.FormatSpecifier => 8
  | 7, TokenType.Content => 9
  | 8, TokenType.Content => 9
  | 10, TokenType.Identifier => 11
  | 11, TokenType.OptionSeparator => 12
  | 12, TokenType.Identifier => 13
  | 13, TokenType.RightTestParenthesis => 4
  | 13, TokenType.ContentSeparator => 10
  | _, _ => 0

def test_state_machine : FiniteStateMachine := ⟨1, [9], test_transition⟩

/-- Modelled from the spec: `string_util::get_boolean_value`
(`parser/string_util.rs` is absent from the sources); the spec's boolean
literal forms are `true/false/yes/no/1/0`. -/
def get_boolean_value (s : String) : Option Bool :=
  match s with
  | "true" => some true
  | "yes" => some true
  | "1" => some true
  | "false" => some false
  | "no" => some false
  | "0" => some false
  | _ => none

/-- Modelled from the spec: `string_util::get_time_value`
(`parser/string_util.rs` is absent from the sources); the spec's time
literal forms are suffixed durations such as `500ms` and `2s`.  The result
is in milliseconds; `none` on an unparseable value. -/
def get_time_value (s : String) : Option Nat :=
  let digitsToNat (cs : List Char) : Option Nat :=
    if cs ≠ [] ∧ cs.all Char.isDigit then
      some (cs.foldl (fun acc c => acc * 10 + (c.toNat - 48)) 0)
    else none
  let cs := s.data
  if cs.length ≥ 2 ∧ cs.drop (cs.length - 2) = ['m', 's'] then
    (digitsToNat (cs.take (cs.length - 2))).map id
  else if cs.length ≥ 1 ∧ cs.drop (cs.length - 1) = ['s'] then
    (digitsToNat (cs.take (cs.length - 1))).map (· * 1000)
  else none

/-- `get_text_format` from `parser/mod.rs`. -/
def get_text_format (token : Token) : Except Error TextFormat :=
  match token.value with
  | "b" => Except.ok TextFormat.Binary
  | "o" => Except.ok TextFormat.Octal
  | "d" => Except.ok TextFormat.Decimal
  | "h" => Except.ok TextFormat.Hex
  | _ => Except.error (Error.UnknownError token.line token.column)

/-- `set_test_option` from `parser/mod.rs`: validates one `name=value`
option slice (`[name, =, value]`) and updates the settings. -/
def set_test_option (tokens : List Token) (settings : TestCaseSettings) :
    Except Error TestCaseSettings :=
  let value := (tok tokens 2).value
  let name := (tok tokens 0).value.trim
  match name with
  | "ignore-case" =>
      match get_boolean_value value with
      | some b => Except.ok { settings with ignore_case := b }
      | none => Except.error
          (Error.InvalidOptionValue "boolean" (tok tokens 2).line (tok tokens 2).column)
  | "delay" =>
      match get_time_value value with
      | some t => Except.ok { settings with delay := some t }
      | none => Except.error
          (Error.InvalidOptionValue "time" (tok tokens 2).line (tok tokens 2).column)
  | "timeout" =>
      match get_time_value value with
      | some t => Except.ok { settings with timeout := t }
      | none => Except.error
          (Error.InvalidOptionValue "time" (tok tokens 2).line (tok tokens 2).column)
  | "repeat" =>
      match value.toNat? with
      | some n => Except.ok { settings with repeat_count := n }
      | none => Except.error
          (Error.InvalidOptionValue "number" (tok tokens 2).line (tok tokens 2).column)
  | _ => Except.error
      (Error.UnknownTestOption name (tok tokens 0).line (tok tokens 0).column)

/-- The `while tokens[index].token_type == ContentSeparator` option loop of
`analyse_test` (`parser/mod.rs`).  Each pass consumes the option slice
`tokens[index+1 .. index+4]` and advances `index` by 4; the fuel bounds the
number of passes and `tokens.length` passes always suffice because the
index strictly increases and the loop continues only while it points at a
real `ContentSeparator` token. -/
def options_loop (tokens : List Token) : Nat → Nat → TestCaseSettings →
    Except Error (Nat × TestCaseSettings)
  | 0, index, settings => Except.ok (index, settings)
  | fuel + 1, index, settings =>
      if (tok tokens index).token_type = TokenType.ContentSeparator then
        match set_test_option ((tokens.drop (index + 1)).take 3) settings with
        | Except.ok s => options_loop tokens fuel (index + 4) s
        | Except.error e => Except.error e
      else Except.ok (index, settings)

/-- `analyse_test_group` from `parser/mod.rs`: run the line through the
group FSM, map a failure state to its error, otherwise build the suite
named by the identifier token. -/
def analyse_test_group (tokens : List Token) (state_machine : FiniteStateMachine) :
    Except Error TestSuite :=
  match state_machine.run tokens with
  | Except.error (state, token) =>
      if state = 2 then
        Except.error (Error.MissingGroupIdentifier token.line token.column)
      else if state = 3 then
        Except.error (Error.MissingClosingParenthesis "]" token.line token.column)
      else Except.error (Error.UnknownError token.line token.column)
  | Except.ok _ => Except.ok (TestSuite.new (tok tokens 1).value)

/-- `analyse_test` from `parser/mod.rs`: run the line through the test-case
FSM, map a failure state to its error, otherwise walk the tokens
positionally to extract name, options, formats, input and output. -/
def analyse_test (tokens : List Token) (state_machine : FiniteStateMachine) :
    Except Error TestCase :=
  match state_machine.run tokens with
  | Except.error (state, token) =>
      if state = 2 then
        Except.error (Error.MissingTestIdentifier token.line token.column)
      else if state = 3 then
        Except.error (Error.MissingClosingParenthesis ")" token.line token.column)
      else if state = 4 ∨ state = 5 then
        Except.error (Error.MissingContent "input" token.line token.column)
      else if state = 6 then
        Except.error (Error.MissingDirectionSeparator token.line token.column)
      else if state = 7 ∨ state = 8 then
        Except.error (Error.MissingContent "output" token.line token.column)
      else Except.error (Error.UnknownError token.line token.column)
  | Except.ok _ => do
      let settings := TestCaseSettings.default
      let (index, name, settings) ←
        if (tok tokens 0).token_type = TokenType.LeftTestParenthesis then do
          let name := (tok tokens 1).value
          let (index, settings) ← options_loop tokens tokens.length 2 settings
          pure (index + 1, name, settings)
        else pure (0, "", settings)
      let (index, settings) ←
        if (tok tokens index).token_type = TokenType.FormatSpecifier then do
          let f ← get_text_format (tok tokens index)
          pure (index + 1, { settings with input_format := f })
        else pure (index, settings)
      let input := (tok tokens index).value
      let index := index + 2
      let (index, settings) ←
        if (tok tokens index).token_type = TokenType.FormatSpecifier then do
          let f ← get_text_format (tok tokens index)
          pure (index + 1, { settings with output_format := f })
        else pure (index, settings)
      let output := (tok tokens index).value
      pure (TestCase.new_with_settings name input output settings)

/-- The first loop of `analyse_tokens` (`parser/mod.rs`): split the token
stream into lines on `Newline`, dropping empty lines, and fail immediately
on the first `Illegal` token.  `acc` is the current line being built;
tokens after the last `Newline` are discarded, exactly as in the source,
where the final `line` vector is dropped when the loop ends. -/
def split_lines_go (acc : List Token) : List Token →
    Except Error (List (List Token))
  | [] => Except.ok []
  | t :: ts =>
      if t.token_type = TokenType.Illegal then
        Except.error (Error.IllegalToken t.value t.line t.column)
      else if t.token_type = TokenType.Newline then
        if acc.length > 0 then
          match split_lines_go [] ts with
          | Except.ok lines => Except.ok (acc :: lines)
          | Except.error e => Except.error e
        else split_lines_go [] ts
      else split_lines_go (acc ++ [t]) ts

def split_lines (tokens : List Token) : Except Error (List (List Token)) :=
  split_lines_go [] tokens

/-- Append a test case to the last suite of the list
(`test_suites.last_mut().unwrap().push(test)` in the source; the source
guarantees the list is non-empty at that point). -/
def push_to_last_suite : List TestSuite → TestCase → List TestSuite
  | [], _ => []
  | [suite], test => [suite.push test]
  | suite :: rest, test => suite :: push_to_last_suite rest test

/-- The second loop of `analyse_tokens` (`parser/mod.rs`): classify each
line by its first token, run it through the matching grammar, and build the
suite list.  A test line arriving before any group header creates the
implicit unnamed suite. -/
def analyse_lines : List (List Token) → List TestSuite →
    Except Error (List TestSuite)
  | [], test_suites => Except.ok test_suites
  | line :: rest, test_suites =>
      let first_token := tok line 0
      if first_token.token_type = TokenType.LeftGroupParenthesis then
        match analyse_test_group line group_state_machine with
        | Except.ok test_suite => analyse_lines rest (test_suites ++ [test_suite])
        | Except.error e => Except.error e
      else if first_token.token_type = TokenType.LeftTestParenthesis ∨
          first_token.token_type = TokenType.FormatSpecifier ∨
          first_token.token_type = TokenType.Content then
        match analyse_test line test_state_machine with
        | Except.ok test =>
            let test_suites :=
              if test_suites.isEmpty then [TestSuite.new ""] else test_suites
            analyse_lines rest (push_to_last_suite test_suites test)
        | Except.error e => Except.error e
      else Except.error (Error.InvalidLineStart first_token.line first_token.column)

/-- `analyse_tokens` from `parser/mod.rs`: the line-splitting loop followed
by the line-analysis loop. -/
def analyse_tokens (tokens : List Token) : Except Error (List TestSuite) :=
  match split_lines tokens with
  | Except.ok lines => analyse_lines lines []
  | Except.error e => Except.error e

/-- Identifier characters of the test-definition language (letters, digits,
`-` and `_`, so that option names such as `ignore-case` and values such as
`200ms` are single identifiers). -/
def isIdentChar (c : Char) : Bool :=
  c.isAlpha ∨ c.isDigit ∨ c = '-' ∨ c = '_'

/-- Modelled from the spec: the position-tracking lexer
(`parser/lexer.rs` is absent from the sources).  One token per recognized
lexeme, 1-based line/column of the token's first character, column
incremented per consumed character and reset after a newline; whitespace
other than newline is skipped and never emitted; `-` followed by `>` is the
direction separator; one of `b/o/d/h` immediately followed by a quote is a
format specifier; a quoted region yields a `Content` token with the literal
text between the quotes (an unterminated region is a single `Illegal` token
at the opening quote, consuming the rest of the input); any unclassifiable
character yields an `Illegal` token.  The fuel decreases by one per emitted
or skipped lexeme while at least one character is consumed, so fuel equal
to the character count never runs out. -/
def lex_go : Nat → List Char → Nat → Nat → List Token
  | 0, _, _, _ => []
  | _, [], _, _ => []
  | fuel + 1, c :: rest, line, col =>
      if c = '\n' then
        ⟨TokenType.Newline, "\n", line, col⟩ :: lex_go fuel rest (line + 1) 1
      else if c = ' ' ∨ c = '\t' ∨ c = '\r' then
        lex_go fuel rest line (col + 1)
      else if c = '[' then
        ⟨TokenType.LeftGroupParenthesis, "[", line, col⟩ :: lex_go fuel rest line (col + 1)
      else if c = ']' then
        ⟨TokenType.RightGroupParenthesis, "]", line, col⟩ :: lex_go fuel rest line (col + 1)
      else if c = '(' then
        ⟨TokenType.LeftTestParenthesis, "(", line, col⟩ :: lex_go fuel rest line (col + 1)
      else if c = ')' then
        ⟨TokenType.RightTestParenthesis, ")", line, col⟩ :: lex_go fuel rest line (col + 1)
      else if c = ',' then
        ⟨TokenType.ContentSeparator, ",", line, col⟩ :: lex_go fuel rest line (col + 1)
      else if c = '=' then
        ⟨TokenType.OptionSeparator, "=", line, col⟩ :: lex_go fuel rest line (col + 1)
      else if c = '-' ∧ rest.headD ' ' = '>' then
        ⟨TokenType.DirectionSeparator, "->", line, col⟩ ::
          lex_go fuel (rest.drop 1) line (col + 2)
      else if c = '"' then
        let content := rest.takeWhile (fun d => d ≠ '"')
        if content.length = rest.length then
          [⟨TokenType.Illegal, String.mk (c :: rest), line, col⟩]
        else
          ⟨TokenType.Content, String.mk content, line, col⟩ ::
            lex_go fuel (rest.drop (content.length + 1)) line (col + content.length + 2)
      else if (c = 'b' ∨ c = 'o' ∨ c = 'd' ∨ c = 'h') ∧ rest.headD ' ' = '"' then
        ⟨TokenType.FormatSpecifier, String.mk [c], line, col⟩ :: lex_go fuel rest line (col + 1)
      else if c.isAlpha ∨ c.isDigit then
        let ident := (c :: rest).takeWhile isIdentChar
        ⟨TokenType.Identifier, String.mk ident, line, col⟩ ::
          lex_go fuel ((c :: rest).drop ident.length) line (col + ident.length)
      else
        ⟨TokenType.Illegal, String.mk [c], line, col⟩ :: lex_go fuel rest line (col + 1)

/-- Modelled from the spec: the lexer's token sequence for a source text,
with the trailing `Newline`-equivalent boundary the spec requires so the
analyzer flushes the last line (emitted as a synthetic `Newline` token). -/
def get_tokens (source : String) : List Token :=
  lex_go source.data.length source.data 1 1 ++ [⟨TokenType.Newline, "", 0, 0⟩]

/-- The parser entry point on source text: lex then analyse
(`parse_file` in `parser/mod.rs` minus the file read). -/
def parse (source : String) : Except Error (List TestSuite) :=
  analyse_tokens (get_tokens source)

/-! ## Serial connection model (`src/serial/mod.rs`, `src/send.rs`) -/

/-- The classification of an `io::Error` the serial code inspects:
`TimedOut` against everything else (`other` carries an opaque code). -/
inductive IOKind where
  | timedOut
  | other (code : Nat)
  deriving DecidableEq, Repr

deriving instance DecidableEq for Except

/-- The port underlying a `Serial` connection, modelled as its configured
timeout plus scripts of the outcomes its `read` and `write` calls produce
in order, and the log of byte slices successfully written.  An exhausted
read script models a silent device: every further bounded read times out. -/
structure PortState where
  timeout : Nat
  reads : List (Except IOKind (List Nat))
  writes : List (Except IOKind Nat)
  written : List (List Nat)
  deriving DecidableEq, Repr

/-- `self.port.read(&mut self.read_buffer)`: the next scripted read
outcome; a silent device (empty script) times out. -/
def port_read (s : PortState) : Except IOKind (List Nat) × PortState :=
  match s.reads with
  | [] => (Except.error IOKind.timedOut, s)
  | r :: rest => (r, { s with reads := rest })

/-- `self.port.write(bytes)`: the next scripted write outcome (an empty
script means the write succeeds); successfully written bytes are logged. -/
def port_write (bytes : List Nat) (s : PortState) : Except IOKind Nat × PortState :=
  match s.writes with
  | [] => (Except.ok bytes.length, { s with written := s.written ++ [bytes] })
  | Except.ok n :: rest =>
      (Except.ok n, { s with writes := rest, written := s.written ++ [bytes] })
  | Except.error e :: rest => (Except.error e, { s with writes := rest })

/-- Modelled from the spec: the byte encoding of a text string, from the
external codec boundary.  The claims exercise ASCII text, where each
character is one UTF-8 byte, so the model maps each character to its code
point. -/
def textBytes (s : String) : List Nat := s.data.map Char.toNat

/-- Modelled from the spec: `utils::bytes_from_binary_string` — groups of
eight binary digits; `none` on an unparseable value (the `utils` module is
absent from the sources). -/
def bits_to_bytes : List Char → List Nat
  | c1 :: c2 :: c3 :: c4 :: c5 :: c6 :: c7 :: c8 :: rest =>
      ([c1, c2, c3, c4, c5, c6, c7, c8].foldl
        (fun acc c => acc * 2 + (if c = '1' then 1 else 0)) 0) :: bits_to_bytes rest
  | _ => []

def bytes_from_binary_string (s : String) : Option (List Nat) :=
  if s.data ≠ [] ∧ s.data.all (fun c => c = '0' ∨ c = '1') ∧ s.data.length % 8 = 0 then
    some (bits_to_bytes s.data)
  else none

/-- The numeric value of a hexadecimal digit character. -/
def hexVal (c : Char) : Nat :=
  if c.isDigit then c.toNat - 48
  else if 'a' ≤ c ∧ c ≤ 'f' then c.toNat - 87
  else if 'A' ≤ c ∧ c ≤ 'F' then c.toNat - 55
  else 0

/-- Modelled from the spec: `utils::bytes_from_hex_string` — pairs of hex
digits; `none` on an unparseable value (the `utils` module is absent from
the sources). -/
def hex_pairs_to_bytes : List Char → List Nat
  | c1 :: c2 :: rest => (hexVal c1 * 16 + hexVal c2) :: hex_pairs_to_bytes rest
  | _ => []

/-- A hexadecimal digit character. -/
def isHexDigitChar (c : Char) : Bool :=
  c.isDigit ∨ ('a' ≤ c ∧ c ≤ 'f') ∨ ('A' ≤ c ∧ c ≤ 'F')

def bytes_from_hex_string (s : String) : Option (List Nat) :=
  if s.data ≠ [] ∧ s.data.all isHexDigitChar ∧ s.data.length % 2 = 0 then
    some (hex_pairs_to_bytes s.data)
  else none

/-- A hexadecimal digit character (lowercase) for a value below 16. -/
def hexDigit (n : Nat) : Char :=
  if n < 10 then Char.ofNat (48 + n) else Char.ofNat (87 + n)

/-- Modelled from the spec: `utils::radix_string` — decode received bytes
into a string per text format (the `utils` module is absent from the
sources).  `Text` decodes bytes as characters (exact for the ASCII range
the claims exercise); the radix formats render each byte in the chosen
base. -/
def radix_string (bytes : List Nat) (format : TextFormat) : String :=
  match format with
  | TextFormat.Text => String.mk (bytes.map Char.ofNat)
  | TextFormat.Hex =>
      String.mk (bytes.flatMap (fun b => [hexDigit (b / 16 % 16), hexDigit (b % 16)]))
  | TextFormat.Binary =>
      String.mk (bytes.flatMap (fun b =>
        (List.range 8).reverse.map (fun i => if b / 2 ^ i % 2 = 1 then '1' else '0')))
  | TextFormat.Octal => String.join (bytes.map (fun b => Nat.toDigits 8 b |> String.mk))
  | TextFormat.Decimal => String.join (bytes.map (fun b => Nat.toDigits 10 b |> String.mk))

/-- An ASCII uppercase letter (`A`–`Z`, code points 65–90). -/
def isAsciiUpper (c : Char) : Bool :=
  65 ≤ c.toNat ∧ c.toNat ≤ 90

/-- Modelled from the spec: Rust's `str::to_lowercase` restricted to the
ASCII range the claims exercise — each `A`–`Z` character is shifted to its
lowercase counterpart, every other character is unchanged. -/
def lower_char (c : Char) : Char :=
  if isAsciiUpper c then Char.ofNat (c.toNat + 32) else c

def to_lowercase (s : String) : String := String.mk (s.data.map lower_char)

/-- `CheckSettings` from `src/serial/mod.rs` with its `Default` impl. -/
structure CheckSettings where
  ignore_case : Bool
  input_format : TextFormat
  output_format : TextFormat
  deriving DecidableEq, Repr

def CheckSettings.default : CheckSettings :=
  ⟨false, TextFormat.Text, TextFormat.Text⟩

/-- The decoded form of one received chunk in `check_read_with_settings`
(`serial/mod.rs`): decode the read bytes per the output format, then
lower-case the decoded text when `ignore_case` is set (the source's two
`let new_text` statements; `desired_response` is never lower-cased). -/
def decode_chunk (settings : CheckSettings) (bytes : List Nat) : String :=
  let new_text := radix_string bytes settings.output_format
  if settings.ignore_case then to_lowercase new_text else new_text

/-- Rust's `s.starts_with(p)`: `s` begins with `p` (computed on the
character lists). -/
def starts_with (s p : String) : Bool := p.data.isPrefixOf s.data

/-- Outcome of an operation that may panic (`unwrap` of `None` in the
source). -/
inductive PanicOr (α : Type) where
  | panicked
  | value (a : α)
  deriving DecidableEq, Repr

/-- The byte encoding step of `Serial::write_format` (`serial/mod.rs`) and
`send_text` (`send.rs`): `Binary`/`Hex` text goes through the codec (whose
`None` is `unwrap`ped — a panic), every other format takes the text's bytes
as-is. -/
def write_format_bytes (text : String) (text_format : TextFormat) : Option (List Nat) :=
  match text_format with
  | TextFormat.Binary => bytes_from_binary_string text
  | TextFormat.Hex => bytes_from_hex_string text
  | _ => some (textBytes text)

/-- `Serial::write_format` from `serial/mod.rs`: encode, then
`self.port.write(bytes)?` — every write error, timeout included,
propagates. -/
def write_format (text : String) (text_format : TextFormat) (s : PortState) :
    PanicOr (Except IOKind Unit × PortState) :=
  match write_format_bytes text text_format with
  | none => PanicOr.panicked
  | some bytes =>
      let (r, s1) := port_write bytes s
      match r with
      | Except.ok _ => PanicOr.value (Except.ok (), s1)
      | Except.error e => PanicOr.value (Except.error e, s1)

/-- `send_text` from `send.rs`: encode (same `unwrap` pattern), write, and
match on the result — `Ok` prints the optional echo (console output, not
modelled) and succeeds, a `TimedOut` error is swallowed as success, any
other error is returned.  The source's error payload is a formatted
message; the model carries the error kind. -/
def send_text (text : String) (text_format : TextFormat) (s : PortState) :
    PanicOr (Except IOKind Unit × PortState) :=
  match write_format_bytes text text_format with
  | none => PanicOr.panicked
  | some bytes =>
      let (r, s1) := port_write bytes s
      match r with
      | Except.ok _ => PanicOr.value (Except.ok (), s1)
      | Except.error IOKind.timedOut => PanicOr.value (Except.ok (), s1)
      | Except.error e => PanicOr.value (Except.error e, s1)

/-- `Serial::read_with_timeout` from `serial/mod.rs`: remember the old
timeout, set the new one, read (`?` — an error propagates at once), and
only on success set the old timeout back. -/
def read_with_timeout (timeout : Nat) (s : PortState) :
    Except IOKind (List Nat) × PortState :=
  let old_timeout := s.timeout
  let s1 := { s with timeout := timeout }
  let (r, s2) := port_read s1
  match r with
  | Except.error e => (Except.error e, s2)
  | Except.ok bytes => (Except.ok bytes, { s2 with timeout := old_timeout })

/-- `Serial::read_str_with_timeout` from `serial/mod.rs`: the same
save/set/read/restore sequence, decoding the bytes to a string on success
(the source's `from_utf8(..).unwrap()`, exact on the ASCII range the
claims exercise). -/
def read_str_with_timeout (timeout : Nat) (s : PortState) :
    Except IOKind String × PortState :=
  let old_timeout := s.timeout
  let s1 := { s with timeout := timeout }
  let (r, s2) := port_read s1
  match r with
  | Except.error e => (Except.error e, s2)
  | Except.ok bytes =>
      (Except.ok (String.mk (bytes.map Char.ofNat)), { s2 with timeout := old_timeout })

/-- The read/compare loop of `Serial::check_read_with_settings`
(`serial/mod.rs`), recursing over the read script and returning the loop's
result together with the unconsumed script.  Each pass: decode the chunk
per the output format, lower-case it when `ignore_case` is set, append it
to `response`; break on exact match or as soon as `response` is no longer a
prefix of `desired_response`; a timeout with an empty `response` is the
distinguished timeout error, with a non-empty one it breaks the loop; any
other read error propagates.  After the loop the source returns
`(desired_response == response, response)`. -/
def check_loop (desired_response : String) (settings : CheckSettings) :
    String → List (Except IOKind (List Nat)) →
    Except IOKind (Bool × String) × List (Except IOKind (List Nat))
  | response, [] =>
      if response.length = 0 then (Except.error IOKind.timedOut, [])
      else (Except.ok (desired_response == response, response), [])
  | response, ev :: rest =>
      match ev with
      | Except.ok bytes =>
          let response := response ++ decode_chunk settings bytes
          if desired_response == response then
            (Except.ok (desired_response == response, response), rest)
          else if starts_with desired_response response = false then
            (Except.ok (desired_response == response, response), rest)
          else check_loop desired_response settings response rest
      | Except.error IOKind.timedOut =>
          if response.length = 0 then (Except.error IOKind.timedOut, rest)
          else (Except.ok (desired_response == response, response), rest)
      | Except.error e => (Except.error e, rest)

/-- `Serial::check_read_with_settings` from `serial/mod.rs`. -/
def check_read_with_settings (desired_response : String) (settings : CheckSettings)
    (s : PortState) : Except IOKind (Bool × String) × PortState :=
  let (r, rest) := check_loop desired_response settings "" s.reads
  (r, { s with reads := rest })

/-- `Serial::check_with_settings` from `serial/mod.rs`: write the text per
the input format (`?` — a write error or panic propagates), then run the
read/compare loop. -/
def check_with_settings (text desired_response : String) (settings : CheckSettings)
    (s : PortState) : PanicOr (Except IOKind (Bool × String) × PortState) :=
  match write_format text settings.input_format s with
  | PanicOr.panicked => PanicOr.panicked
  | PanicOr.value (Except.error e, s1) => PanicOr.value (Except.error e, s1)
  | PanicOr.value (Except.ok _, s1) =>
      PanicOr.value (check_read_with_settings desired_response settings s1)

/-- `Serial::check` from `serial/mod.rs` (default settings). -/
def check (text desired_response : String) (s : PortState) :
    PanicOr (Except IOKind (Bool × String) × PortState) :=
  check_with_settings text desired_response CheckSettings.default s

/-- `Serial::check_read` from `serial/mod.rs` (default settings). -/
def check_read (desired_response : String) (s : PortState) :
    Except IOKind (Bool × String) × PortState :=
  check_read_with_settings desired_response CheckSettings.default s

/-- The matched flag of a check result (`false` when no flag was
returned). -/
def matched_of : Except IOKind (Bool × String) → Bool
  | Except.ok (m, _) => m
  | Except.error _ => false

end SerialUnitTesting

namespace SerialUnitTesting

/-! ## Supporting lemmas -/

lemma char_toNat_ofNat {n : Nat} (h : n < 55296) : (Char.ofNat n).toNat = n := by
  unfold Char.ofNat
  rw [dif_pos (Or.inl h)]
  rfl

lemma lower_char_not_upper (c : Char) : isAsciiUpper (lower_char c) = false := by
  unfold lower_char
  by_cases h : isAsciiUpper c = true
  · rw [if_pos h]
    unfold isAsciiUpper at h ⊢
    simp only [decide_eq_true_eq] at h
    have hv : (Char.ofNat (c.toNat + 32)).toNat = c.toNat + 32 :=
      char_toNat_ofNat (by omega)
    simp only [hv, decide_eq_false_iff_not]
    omega
  · rw [if_neg h]
    simpa using h

lemma to_lowercase_no_upper (s : String) :
    ∀ c ∈ (to_lowercase s).data, isAsciiUpper c = false := by
  intro c hc
  unfold to_lowercase at hc
  simp only [String.data] at hc
  obtain ⟨d, _, rfl⟩ := List.mem_map.1 hc
  exact lower_char_not_upper d

lemma decode_chunk_no_upper (st : CheckSettings) (hic : st.ignore_case = true)
    (bytes : List Nat) :
    ∀ c ∈ (decode_chunk st bytes).data, isAsciiUpper c = false := by
  unfold decode_chunk
  rw [if_pos hic]
  exact to_lowercase_no_upper _

/-- Whenever the read/compare loop returns a `(matched, response)` pair,
the flag is exactly the equality test of the desired and accumulated
responses. -/
lemma check_loop_ok_matched (desired : String) (st : CheckSettings) :
    ∀ (reads : List (Except IOKind (List Nat))) (response : String) (m : Bool)
      (r : String) (rest : List (Except IOKind (List Nat))),
      check_loop desired st response reads = (Except.ok (m, r), rest) →
      m = (desired == r) := by
  intro reads
  induction reads with
  | nil =>
      intro response m r rest h
      simp only [check_loop] at h
      split at h
      · exact absurd h (by simp)
      · injection h with h1 _
        injection h1 with h2
        injection h2 with hm hr
        subst hm
        subst hr
        rfl
  | cons ev tail ih =>
      intro response m r rest h
      match ev with
      | Except.ok bytes =>
          simp only [check_loop] at h
          split at h
          · injection h with h1 _
            injection h1 with h2
            injection h2 with hm hr
            subst hm
            subst hr
            rfl
          · split at h
            · injection h with h1 _
              injection h1 with h2
              injection h2 with hm hr
              subst hm
              subst hr
              rfl
            · exact ih _ _ _ _ h
      | Except.error IOKind.timedOut =>
          simp only [check_loop] at h
          split at h
          · exact absurd h (by simp)
          · injection h with h1 _
            injection h1 with h2
            injection h2 with hm hr
            subst hm
            subst hr
            rfl
      | Except.error (IOKind.other code) =>
          simp only [check_loop] at h
          exact absurd h (by simp)

/-- With `ignore_case` set, every chunk appended to the accumulated
response is lower-cased first, so a response built from a start value
without ASCII uppercase letters never contains one. -/
lemma check_loop_ok_no_upper (desired : String) (st : CheckSettings)
    (hic : st.ignore_case = true) :
    ∀ (reads : List (Except IOKind (List Nat))) (response : String),
      (∀ c ∈ response.data, isAsciiUpper c = false) →
      ∀ (m : Bool) (r : String) (rest : List (Except IOKind (List Nat))),
        check_loop desired st response reads = (Except.ok (m, r), rest) →
        ∀ c ∈ r.data, isAsciiUpper c = false := by
  intro reads
  induction reads with
  | nil =>
      intro response hresp m r rest h
      simp only [check_loop] at h
      split at h
      · exact absurd h (by simp)
      · injection h with h1 _
        injection h1 with h2
        injection h2 with _ hr
        subst hr
        exact hresp
  | cons ev tail ih =>
      intro response hresp m r rest h
      match ev with
      | Except.ok bytes =>
          simp only [check_loop] at h
          have hgrow : ∀ c ∈ (response ++ decode_chunk st bytes).data,
              isAsciiUpper c = false := by
            intro c hc
            rw [String.data_append] at hc
            rcases List.mem_append.1 hc with hc | hc
            · exact hresp c hc
            · exact decode_chunk_no_upper st hic bytes c hc
          split at h
          · injection h with h1 _
            injection h1 with h2
            injection h2 with _ hr
            subst hr
            exact hgrow
          · split at h
            · injection h with h1 _
              injection h1 with h2
              injection h2 with _ hr
              subst hr
              exact hgrow
            · exact ih _ hgrow _ _ _ h
      | Except.error IOKind.timedOut =>
          simp only [check_loop] at h
          split at h
          · exact absurd h (by simp)
          · injection h with h1 _
            injection h1 with h2
            injection h2 with _ hr
            subst hr
            exact hresp
      | Except.error (IOKind.other code) =>
          simp only [check_loop] at h
          exact absurd h (by simp)

/-- The line splitter aborts with the first `Illegal` token's text and
position, for any current-line accumulator. -/
lemma split_lines_go_illegal :
    ∀ (pre : List Token) (acc : List Token) (t : Token) (post : List Token),
      (∀ u ∈ pre, u.token_type ≠ TokenType.Illegal) →
      t.token_type = TokenType.Illegal →
      split_lines_go acc (pre ++ t :: post) =
        Except.error (Error.IllegalToken t.value t.line t.column) := by
  intro pre
  induction pre with
  | nil =>
      intro acc t post _ ht
      simp only [List.nil_append, split_lines_go]
      rw [if_pos ht]
  | cons u pre ih =>
      intro acc t post hpre ht
      have hu : u.token_type ≠ TokenType.Illegal := hpre u (by simp)
      have hrest : ∀ v ∈ pre, v.token_type ≠ TokenType.Illegal := by
        intro v hv
        exact hpre v (by simp [hv])
      simp only [List.cons_append, split_lines_go]
      rw [if_neg hu]
      by_cases hn : u.token_type = TokenType.Newline
      · rw [if_pos hn]
        by_cases hlen : acc.length > 0
        · rw [if_pos hlen]
          simp only [List.append_eq]
          rw [ih [] t post hrest ht]
        · rw [if_neg hlen]
          exact ih [] t post hrest ht
      · rw [if_neg hn]
        exact ih (acc ++ [u]) t post hrest ht

/-- The line splitter never produces an empty line: a line is pushed only
when the accumulator is non-empty. -/
lemma split_lines_go_no_empty :
    ∀ (ts : List Token) (acc : List Token) (lines : List (List Token)),
      split_lines_go acc ts = Except.ok lines → ∀ l ∈ lines, l ≠ [] := by
  intro ts
  induction ts with
  | nil =>
      intro acc lines h l hl
      simp only [split_lines_go] at h
      injection h with h1
      subst h1
      simp at hl
  | cons t ts ih =>
      intro acc lines h l hl
      simp only [split_lines_go] at h
      split at h
      · exact absurd h (by simp)
      · split at h
        · split at h
          next hlen =>
            rcases hrec : split_lines_go [] ts with e | lines'
            · rw [hrec] at h
              exact absurd h (by simp)
            · rw [hrec] at h
              injection h with h1
              subst h1
              rcases List.mem_cons.1 hl with rfl | hl'
              · intro hacc
                rw [hacc] at hlen
                simp at hlen
              · exact ih [] lines' hrec l hl'
          next hlen => exact ih [] lines h l hl
        · exact ih (acc ++ [t]) lines h l hl

end SerialUnitTesting

namespace SerialUnitTesting

/-! ## Claim theorems -/

/-- C1: the claim states that the source text `[ Foo ]` followed by
`"a" -> "b"` parses to one suite `Foo` holding one unnamed test with input
`a` and output `b`, the test-case grammar accepting a test line with no
name, no options and no format specifiers.  The code does the opposite:
the test-case FSM transition `1, Content => 5` sends a line starting with
a bare content literal into state 5, which only accepts another `Content`
token, so the direction separator is rejected in state 5 and the parse
fails with `MissingContent "input"` at the separator's position (line 2,
column 5).  This theorem evaluates the parser at the claim's input and the
FSM at the bare test line's tokens. -/
theorem c1_unnamed_test_line_rejected :
    parse "[ Foo ]\n\"a\" -> \"b\"" =
      Except.error (Error.MissingContent "input" 2 5) ∧
    test_state_machine.run
      [⟨TokenType.Content, "a", 2, 1⟩, ⟨TokenType.DirectionSeparator, "->", 2, 5⟩,
       ⟨TokenType.Content, "b", 2, 8⟩] =
      Except.error (5, ⟨TokenType.DirectionSeparator, "->", 2, 5⟩) := by
  constructor
  · decide
  · decide

/-- C2: the claim states that after every read-with-timeout call — success
or failure — the connection's configured timeout equals its pre-call
value.  The code restores the saved timeout only after a successful read:
the `?` on `self.port.read` propagates a read error before the restore
statement runs.  Evaluated on a port configured with timeout 100 whose
read fails with a non-timeout error: the call returns the error and leaves
the temporary timeout 5 in place (both for `read_with_timeout` and
`read_str_with_timeout`), while on a successful read the old timeout 100
is restored. -/
theorem c2_timeout_not_restored_on_read_error :
    (read_with_timeout 5 ⟨100, [Except.error (IOKind.other 7)], [], []⟩).1 =
      Except.error (IOKind.other 7) ∧
    (read_with_timeout 5 ⟨100, [Except.error (IOKind.other 7)], [], []⟩).2.timeout = 5 ∧
    (read_str_with_timeout 5 ⟨100, [Except.error (IOKind.other 7)], [], []⟩).2.timeout = 5 ∧
    (⟨100, [Except.error (IOKind.other 7)], [], []⟩ : PortState).timeout = 100 ∧
    (read_with_timeout 5 ⟨100, [Except.ok [65]], [], []⟩).2.timeout = 100 := by
  refine ⟨rfl, rfl, rfl, rfl, rfl⟩

/-- C3: the read/compare loop of `check_read_with_settings` exits as soon
as the accumulated response equals the desired response, exits as soon as
the accumulated response stops being a prefix of the desired response —
leaving the remaining read script untouched, so no further reads occur —
and every returned pair is `(matched, response)` with `matched` true
exactly when the response equals the desired response; in particular a
connection yielding `ER` then `R` checked against `OK` returns
`(false, "ER")` with the second chunk still unread. -/
theorem c3_check_read_prefix_early_termination (desired : String) (st : CheckSettings) :
    (∀ (response : String) (bytes : List Nat) (rest : List (Except IOKind (List Nat))),
      response ++ decode_chunk st bytes = desired →
      check_loop desired st response (Except.ok bytes :: rest) =
        (Except.ok (true, desired), rest)) ∧
    (∀ (response : String) (bytes : List Nat) (rest : List (Except IOKind (List Nat))),
      response ++ decode_chunk st bytes ≠ desired →
      starts_with desired (response ++ decode_chunk st bytes) = false →
      check_loop desired st response (Except.ok bytes :: rest) =
        (Except.ok (false, response ++ decode_chunk st bytes), rest)) ∧
    (∀ reads response m r rest,
      check_loop desired st response reads = (Except.ok (m, r), rest) →
      (m = true ↔ r = desired)) ∧
    check_read_with_settings "OK" CheckSettings.default
        ⟨100, [Except.ok [69, 82], Except.ok [82]], [], []⟩ =
      (Except.ok (false, "ER"), ⟨100, [Except.ok [82]], [], []⟩) := by
  refine ⟨?_, ?_, ?_, ?_⟩
  · intro response bytes rest h
    have hb : (desired == response ++ decode_chunk st bytes) = true := beq_iff_eq.2 h.symm
    simp only [check_loop]
    rw [if_pos hb, hb, h]
  · intro response bytes rest hne hpre
    have hb : (desired == response ++ decode_chunk st bytes) = false :=
      beq_eq_false_iff_ne.2 (Ne.symm hne)
    simp only [check_loop]
    rw [if_neg (by simp [hb]), if_pos hpre, hb]
  · intro reads response m r rest h
    have hm := check_loop_ok_matched desired st reads response m r rest h
    subst hm
    constructor
    · intro hb
      exact (beq_iff_eq.1 hb).symm
    · intro hb
      exact beq_iff_eq.2 hb.symm
  · decide

/-- C3 witness: an exact match on the first chunk terminates with
`(true, "AB")` and the read script consumed only once. -/
theorem c3_check_read_prefix_early_termination_witness :
    check_loop "AB" CheckSettings.default "" [Except.ok [65, 66]] =
      (Except.ok (true, "AB"), []) :=
  (c3_check_read_prefix_early_termination "AB" CheckSettings.default).1 "" [65, 66] []
    (by decide)

/-- C4: in the read/compare loop a timeout with an empty accumulated
response is the distinguished timeout error, a timeout with a non-empty
response terminates the loop normally returning the accumulated response,
and any non-timeout read error propagates immediately; a connection that
times out with zero bytes read makes `check_read_with_settings` return the
timeout error, not `(false, "")`. -/
theorem c4_check_read_timeout_policy (desired : String) (st : CheckSettings) :
    (∀ (response : String) (rest : List (Except IOKind (List Nat))),
      response.length = 0 →
      check_loop desired st response (Except.error IOKind.timedOut :: rest) =
        (Except.error IOKind.timedOut, rest)) ∧
    (∀ (response : String) (rest : List (Except IOKind (List Nat))),
      response.length ≠ 0 →
      check_loop desired st response (Except.error IOKind.timedOut :: rest) =
        (Except.ok (desired == response, response), rest)) ∧
    (∀ (response : String) (rest : List (Except IOKind (List Nat))) (code : Nat),
      check_loop desired st response (Except.error (IOKind.other code) :: rest) =
        (Except.error (IOKind.other code), rest)) ∧
    check_read_with_settings "OK" CheckSettings.default
        ⟨100, [Except.error IOKind.timedOut], [], []⟩ =
      (Except.error IOKind.timedOut, ⟨100, [], [], []⟩) := by
  refine ⟨?_, ?_, ?_, ?_⟩
  · intro response rest h
    simp only [check_loop]
    rw [if_pos h]
  · intro response rest h
    simp only [check_loop]
    rw [if_neg h]
  · intro response rest code
    rfl
  · decide

/-- C4 witness: a timeout on the very first read yields the distinguished
timeout error. -/
theorem c4_check_read_timeout_policy_witness :
    check_loop "OK" CheckSettings.default "" [Except.error IOKind.timedOut] =
      (Except.error IOKind.timedOut, []) :=
  (c4_check_read_timeout_policy "OK" CheckSettings.default).1 "" [] rfl

/-- C5: when the test-case FSM rejects a line with failure pair
`(state, token)`, `analyse_test` maps state 2 to the missing-test-identifier
error, state 3 to missing-closing-parenthesis, states 4 and 5 to missing
input content, state 6 to missing-direction-separator, states 7 and 8 to
missing output content — each at the rejecting token's line and column —
and every other failure state to the catch-all `UnknownError`. -/
theorem c5_test_fsm_failure_error_mapping (tokens : List Token) (state : Nat)
    (token : Token)
    (h : test_state_machine.run tokens = Except.error (state, token)) :
    (state = 2 → analyse_test tokens test_state_machine =
      Except.error (Error.MissingTestIdentifier token.line token.column)) ∧
    (state = 3 → analyse_test tokens test_state_machine =
      Except.error (Error.MissingClosingParenthesis ")" token.line token.column)) ∧
    (state = 4 ∨ state = 5 → analyse_test tokens test_state_machine =
      Except.error (Error.MissingContent "input" token.line token.column)) ∧
    (state = 6 → analyse_test tokens test_state_machine =
      Except.error (Error.MissingDirectionSeparator token.line token.column)) ∧
    (state = 7 ∨ state = 8 → analyse_test tokens test_state_machine =
      Except.error (Error.MissingContent "output" token.line token.column)) ∧
    (¬(state = 2 ∨ state = 3 ∨ state = 4 ∨ state = 5 ∨ state = 6 ∨ state = 7 ∨ state = 8) →
      analyse_test tokens test_state_machine =
        Except.error (Error.UnknownError token.line token.column)) := by
  refine ⟨?_, ?_, ?_, ?_, ?_, ?_⟩
  · intro hs
    subst hs
    simp [analyse_test, h]
  · intro hs
    subst hs
    simp [analyse_test, h]
  · intro hs
    rcases hs with hs | hs <;> subst hs <;> simp [analyse_test, h]
  · intro hs
    subst hs
    simp [analyse_test, h]
  · intro hs
    rcases hs with hs | hs <;> subst hs <;> simp [analyse_test, h]
  · intro hs
    push_neg at hs
    obtain ⟨h2, h3, h4, h5, h6, h7, h8⟩ := hs
    simp only [analyse_test, h]
    rw [if_neg h2, if_neg h3, if_neg (by tauto), if_neg h6, if_neg (by tauto)]

/-- C5 witness: a test line whose identifier slot holds a content token is
rejected in state 2 and reported as a missing test identifier at that
token's position. -/
theorem c5_test_fsm_failure_error_mapping_witness :
    analyse_test [⟨TokenType.LeftTestParenthesis, "(", 1, 1⟩, ⟨TokenType.Content, "a", 1, 3⟩]
      test_state_machine = Except.error (Error.MissingTestIdentifier 1 3) :=
  (c5_test_fsm_failure_error_mapping
    [⟨TokenType.LeftTestParenthesis, "(", 1, 1⟩, ⟨TokenType.Content, "a", 1, 3⟩]
    2 ⟨TokenType.Content, "a", 1, 3⟩ (by decide)).1 rfl

/-- C6 counterexample: the claim states that a formatted write on the
serial connection treats a timeout as success with no effect.
`Serial::write_format` has no such case — its `?` propagates every write
error — so a port whose write times out makes `write_format` return the
timeout error rather than `Ok`. -/
theorem c6_write_timeout_counterexample :
    write_format "hi" TextFormat.Text ⟨100, [], [Except.error IOKind.timedOut], []⟩ =
      PanicOr.value (Except.error IOKind.timedOut, ⟨100, [], [], []⟩) := by
  decide

/-- C6 amended: `Serial::write_format` propagates every write failure —
timeouts included — to the caller; the timeout-tolerant behavior exists
only in the send command's `send_text`, which treats a write timeout as
success with no effect and propagates any other write failure. -/
theorem c6_write_error_propagation (text : String) (fmt : TextFormat) (bytes : List Nat)
    (henc : write_format_bytes text fmt = some bytes) :
    (∀ (timeout : Nat) (reads : List (Except IOKind (List Nat)))
        (ws : List (Except IOKind Nat)) (written : List (List Nat)) (e : IOKind),
      write_format text fmt ⟨timeout, reads, Except.error e :: ws, written⟩ =
        PanicOr.value (Except.error e, ⟨timeout, reads, ws, written⟩)) ∧
    (∀ (timeout : Nat) (reads : List (Except IOKind (List Nat)))
        (ws : List (Except IOKind Nat)) (written : List (List Nat)),
      send_text text fmt ⟨timeout, reads, Except.error IOKind.timedOut :: ws, written⟩ =
        PanicOr.value (Except.ok (), ⟨timeout, reads, ws, written⟩)) ∧
    (∀ (timeout : Nat) (reads : List (Except IOKind (List Nat)))
        (ws : List (Except IOKind Nat)) (written : List (List Nat)) (code : Nat),
      send_text text fmt ⟨timeout, reads, Except.error (IOKind.other code) :: ws, written⟩ =
        PanicOr.value (Except.error (IOKind.other code), ⟨timeout, reads, ws, written⟩)) := by
  refine ⟨?_, ?_, ?_⟩ <;> intros <;> simp [write_format, send_text, henc, port_write]

/-- C6 witness: a non-timeout write failure propagates out of
`write_format`. -/
theorem c6_write_error_propagation_witness :
    write_format "hi" TextFormat.Text ⟨5, [], [Except.error (IOKind.other 3)], []⟩ =
      PanicOr.value (Except.error (IOKind.other 3), ⟨5, [], [], []⟩) :=
  (c6_write_error_propagation "hi" TextFormat.Text (textBytes "hi") rfl).1
    5 [] [] [] (IOKind.other 3)

/-- C7: a token sequence containing an `Illegal` token makes the analysis
fail with the `IllegalToken` error carrying the first such token's text,
line and column — the token never reaches grammar checking, since the line
splitter aborts — and on this error no test suites are returned. -/
theorem c7_illegal_token_aborts_analysis (pre : List Token) (t : Token)
    (post : List Token)
    (hpre : ∀ u ∈ pre, u.token_type ≠ TokenType.Illegal)
    (ht : t.token_type = TokenType.Illegal) :
    analyse_tokens (pre ++ t :: post) =
      Except.error (Error.IllegalToken t.value t.line t.column) ∧
    ∀ suites, analyse_tokens (pre ++ t :: post) ≠ Except.ok suites := by
  have hsplit := split_lines_go_illegal pre [] t post hpre ht
  have h1 : analyse_tokens (pre ++ t :: post) =
      Except.error (Error.IllegalToken t.value t.line t.column) := by
    simp only [analyse_tokens, split_lines, hsplit]
  refine ⟨h1, ?_⟩
  intro suites hok
  rw [h1] at hok
  exact absurd hok (by simp)

/-- C7 witness: an illegal token after a legal one aborts the analysis
with that token's text and position. -/
theorem c7_illegal_token_aborts_analysis_witness :
    analyse_tokens [⟨TokenType.Identifier, "x", 1, 1⟩, ⟨TokenType.Illegal, "?", 1, 3⟩] =
      Except.error (Error.IllegalToken "?" 1 3) :=
  (c7_illegal_token_aborts_analysis [⟨TokenType.Identifier, "x", 1, 1⟩]
    ⟨TokenType.Illegal, "?", 1, 3⟩ [] (by simp) rfl).1

/-- C8: parsing empty source text yields an empty suite list, not an
error, and for every token sequence the line splitter drops lines with no
tokens before a newline, so no empty line ever reaches grammar checking. -/
theorem c8_empty_source_and_empty_lines :
    parse "" = Except.ok [] ∧
    (∀ (tokens : List Token) (lines : List (List Token)),
      split_lines tokens = Except.ok lines → ∀ l ∈ lines, l ≠ []) := by
  constructor
  · decide
  · intro tokens lines h
    simp only [split_lines] at h
    exact split_lines_go_no_empty tokens [] lines h

/-- C8 witness: the single line split from a content token followed by two
newlines is non-empty. -/
theorem c8_empty_source_and_empty_lines_witness :
    [(⟨TokenType.Content, "a", 1, 1⟩ : Token)] ≠ ([] : List Token) :=
  c8_empty_source_and_empty_lines.2
    [⟨TokenType.Content, "a", 1, 1⟩, ⟨TokenType.Newline, "\n", 1, 2⟩,
     ⟨TokenType.Newline, "\n", 2, 1⟩]
    [[⟨TokenType.Content, "a", 1, 1⟩]] (by decide) _ (by simp)

/-- C9: `write_format` with format `Binary` or `Hex` and a text the codec
cannot parse panics (the `unwrap` of `None`), rather than returning an
I/O error; with any other format the text's encoded bytes are passed to
the port write unchanged, and on a successful write exactly those bytes
are recorded as written. -/
theorem c9_write_format_panics_on_bad_codec_text :
    (∀ (text : String) (s : PortState), bytes_from_binary_string text = none →
      write_format text TextFormat.Binary s = PanicOr.panicked) ∧
    (∀ (text : String) (s : PortState), bytes_from_hex_string text = none →
      write_format text TextFormat.Hex s = PanicOr.panicked) ∧
    (∀ (text : String) (fmt : TextFormat),
      fmt = TextFormat.Text ∨ fmt = TextFormat.Octal ∨ fmt = TextFormat.Decimal →
      write_format_bytes text fmt = some (textBytes text)) ∧
    (∀ (text : String) (fmt : TextFormat) (timeout : Nat)
        (reads : List (Except IOKind (List Nat))) (written : List (List Nat)),
      fmt = TextFormat.Text ∨ fmt = TextFormat.Octal ∨ fmt = TextFormat.Decimal →
      write_format text fmt ⟨timeout, reads, [], written⟩ =
        PanicOr.value (Except.ok (), ⟨timeout, reads, [], written ++ [textBytes text]⟩)) := by
  refine ⟨?_, ?_, ?_, ?_⟩
  · intro text s h
    simp [write_format, write_format_bytes, h]
  · intro text s h
    simp [write_format, write_format_bytes, h]
  · intro text fmt hf
    rcases hf with rfl | rfl | rfl <;> rfl
  · intro text fmt timeout reads written hf
    rcases hf with rfl | rfl | rfl <;> simp [write_format, write_format_bytes, port_write]

/-- C9 witness: the text `2` is not a binary digit string, so a binary
formatted write of it panics. -/
theorem c9_write_format_panics_on_bad_codec_text_witness :
    write_format "2" TextFormat.Binary ⟨0, [], [], []⟩ = PanicOr.panicked :=
  c9_write_format_panics_on_bad_codec_text.1 "2" ⟨0, [], [], []⟩ (by decide)

/-- C10: with `ignore_case` set, `check_read_with_settings` lower-cases
only the decoded received chunks and never the desired response, so
whenever the desired response contains an ASCII uppercase letter the
returned matched flag is `false` for every read script. -/
theorem c10_ignore_case_only_lowers_received (desired : String) (st : CheckSettings)
    (s : PortState) (hic : st.ignore_case = true)
    (hup : ∃ c ∈ desired.data, isAsciiUpper c = true) :
    matched_of (check_read_with_settings desired st s).1 = false := by
  rcases hr : check_loop desired st "" s.reads with ⟨res, rest⟩
  simp only [check_read_with_settings, hr]
  cases res with
  | error e => rfl
  | ok p =>
      obtain ⟨m, r⟩ := p
      cases m with
      | false => rfl
      | true =>
          exfalso
          have hm := check_loop_ok_matched desired st s.reads "" true r rest hr
          have hdr : desired = r := beq_iff_eq.1 hm.symm
          have hnoup := check_loop_ok_no_upper desired st hic s.reads ""
            (by intro c hc; simp at hc) true r rest hr
          obtain ⟨c, hcmem, hcup⟩ := hup
          rw [hdr] at hcmem
          rw [hnoup c hcmem] at hcup
          exact Bool.false_ne_true hcup

/-- C10 witness: checking for `OK` with `ignore_case` set against a device
that answers `OK` still fails to match, because the received chunk is
lower-cased to `ok` while the desired response is not. -/
theorem c10_ignore_case_only_lowers_received_witness :
    matched_of (check_read_with_settings "OK" ⟨true, TextFormat.Text, TextFormat.Text⟩
      ⟨100, [Except.ok [79, 75]], [], []⟩).1 = false :=
  c10_ignore_case_only_lowers_received "OK" ⟨true, TextFormat.Text, TextFormat.Text⟩
    ⟨100, [Except.ok [79, 75]], [], []⟩ rfl ⟨'O', by decide, by decide⟩

end SerialUnitTesting
